import Mathlib

/-
Verification development for the swagger2http converter
(src/python/swagger2http.py). The parsed Swagger/OpenAPI document is an
untyped tree of Python values; we embed it as the inductive type PyVal
below. Python dictionaries are modelled as insertion-ordered association
lists with string keys (the documents come from JSON/YAML mappings).
Float scalars are outside the model; none of the verified code paths
produce or consume them. Code that can raise a Python exception is
embedded with Option (for the generators) or Except String (for the
resolver and the emitter), the error value standing for the raised
exception.
-/

set_option autoImplicit false
set_option linter.unusedVariables false

namespace Swagger2Http

/-- Untyped Python values as produced by json.load / yaml.safe_load. -/
inductive PyVal : Type where
  | pnone : PyVal
  | pbool : Bool → PyVal
  | pint : Int → PyVal
  | pstr : String → PyVal
  | plist : List PyVal → PyVal
  | pdict : List (String × PyVal) → PyVal

namespace PyVal

/-- Dictionary lookup: first binding of the key (Python dicts have unique
keys, so first-match agrees with Python indexing). -/
def dlookup : List (String × PyVal) → String → Option PyVal
  | [], _ => none
  | (k, v) :: rest, key => if k = key then some v else dlookup rest key

def dlookup_sizeOf {l : List (String × PyVal)} {k : String} {v : PyVal}
    (h : dlookup l k = some v) : sizeOf v < sizeOf l := by
  induction l with
  | nil => simp [dlookup] at h
  | cons hd tl ih =>
    obtain ⟨k', v'⟩ := hd
    simp only [dlookup] at h
    split at h
    · cases h
      simp only [List.cons.sizeOf_spec, Prod.mk.sizeOf_spec]
      omega
    · have := ih h
      simp only [List.cons.sizeOf_spec]
      omega

end PyVal

open PyVal

/-- Python truthiness of a value, as tested by the bare if on the schema. -/
def pyTruthy : PyVal → Bool
  | .pnone => false
  | .pbool b => b
  | .pint n => n != 0
  | .pstr s => s != ""
  | .plist xs => !xs.isEmpty
  | .pdict xs => !xs.isEmpty

mutual

/-- Embedding of generate_example (swagger2http.py lines 44-64): the
example-first generator used for Swagger 2.0 body parameters. A non-dict
schema makes the Python code raise, which we model as none. -/
def generate_example : PyVal → Option PyVal
  | .pdict l =>
    match dlookup l "example" with
    | some e => some e
    | none =>
      match hp : dlookup l "properties" with
      | some (.pdict props) =>
        match genExProps props with
        | some out => some (.pdict out)
        | none => none
      | some _ => none
      | none => some (.pdict [])
  | _ => none
termination_by s => sizeOf s
decreasing_by
  have h1 := PyVal.dlookup_sizeOf hp
  simp only [PyVal.pdict.sizeOf_spec] at h1 ⊢
  omega

/-- The property loop of generate_example (lines 50-63), one schema dict
entry at a time in insertion order. A property whose schema is not a dict
makes the Python code raise (modelled as none). Properties matching none
of the branches are silently dropped, exactly as in the source. -/
def genExProps : List (String × PyVal) → Option (List (String × PyVal))
  | [] => some []
  | (prop, .pdict dl) :: rest =>
    match dlookup dl "example" with
    | some e =>
      match genExProps rest with
      | some r => some ((prop, e) :: r)
      | none => none
    | none =>
      match dlookup dl "type" with
      | some (.pstr "string") =>
        match genExProps rest with
        | some r => some ((prop, .pstr "string") :: r)
        | none => none
      | some (.pstr "integer") =>
        match genExProps rest with
        | some r => some ((prop, .pint 0) :: r)
        | none => none
      | some (.pstr "boolean") =>
        match genExProps rest with
        | some r => some ((prop, .pbool true) :: r)
        | none => none
      | some (.pstr "array") =>
        match hi : dlookup dl "items" with
        | some items =>
          match generate_example items with
          | some ex =>
            match genExProps rest with
            | some r => some ((prop, .plist [ex]) :: r)
            | none => none
          | none => none
        | none =>
          match dlookup dl "$ref" with
          | some r =>
            match genExProps rest with
            | some rs => some ((prop, .pdict [("$ref", r)]) :: rs)
            | none => none
          | none => genExProps rest
      | _ =>
        match dlookup dl "$ref" with
        | some r =>
          match genExProps rest with
          | some rs => some ((prop, .pdict [("$ref", r)]) :: rs)
          | none => none
        | none => genExProps rest
  | (_, _) :: _ => none
termination_by l => sizeOf l
decreasing_by
  all_goals simp only [List.cons.sizeOf_spec, Prod.mk.sizeOf_spec, PyVal.pdict.sizeOf_spec]
  all_goals try omega
  have h1 := PyVal.dlookup_sizeOf hi
  omega

end

mutual

/-- Embedding of generate_default_body (swagger2http.py lines 66-102): the
name-hinted generator used for OpenAPI 3.x request bodies. An empty (falsy)
schema yields the fallback mapping; a dict with a top-level ref key yields
the placeholder; otherwise the behaviour is driven by the type key,
defaulting to object. A truthy non-dict schema makes the Python code raise
(modelled as none). -/
def generate_default_body : PyVal → Option PyVal
  | .pdict [] => some (.pdict [("key", .pstr "value")])
  | .pdict ((k0, v0) :: l) =>
    match dlookup ((k0, v0) :: l) "$ref" with
    | some r => some (.pdict [("$ref", r)])
    | none =>
      match dlookup ((k0, v0) :: l) "type" with
      | none =>
        match hp : dlookup ((k0, v0) :: l) "properties" with
        | some (.pdict props) =>
          match genDefProps props with
          | some out => some (.pdict out)
          | none => none
        | some _ => none
        | none => some (.pdict [])
      | some (.pstr "object") =>
        match hp : dlookup ((k0, v0) :: l) "properties" with
        | some (.pdict props) =>
          match genDefProps props with
          | some out => some (.pdict out)
          | none => none
        | some _ => none
        | none => some (.pdict [])
      | some (.pstr "array") =>
        match hi : dlookup ((k0, v0) :: l) "items" with
        | some items =>
          match generate_default_body items with
          | some ex => some (.plist [ex])
          | none => none
        | none =>
          match generate_default_body (.pdict []) with
          | some ex => some (.plist [ex])
          | none => none
      | some _ => some (.pdict [])
  | v => if pyTruthy v then none else some (.pdict [("key", .pstr "value")])
termination_by s => sizeOf s
decreasing_by
  all_goals simp only [List.cons.sizeOf_spec, Prod.mk.sizeOf_spec, PyVal.pdict.sizeOf_spec,
    List.nil.sizeOf_spec] at *
  · have h1 := PyVal.dlookup_sizeOf hp
    simp only [List.cons.sizeOf_spec, Prod.mk.sizeOf_spec, PyVal.pdict.sizeOf_spec] at h1
    omega
  · have h1 := PyVal.dlookup_sizeOf hp
    simp only [List.cons.sizeOf_spec, Prod.mk.sizeOf_spec, PyVal.pdict.sizeOf_spec] at h1
    omega
  · have h1 := PyVal.dlookup_sizeOf hi
    simp only [List.cons.sizeOf_spec, Prod.mk.sizeOf_spec] at h1
    omega
  · omega

/-- The property loop of generate_default_body (lines 83-97), one schema
dict entry in insertion order. The declared type defaults to string when
absent; a property of unrecognized type is silently dropped, exactly as in
the source. A non-dict property schema makes the Python code raise. -/
def genDefProps : List (String × PyVal) → Option (List (String × PyVal))
  | [] => some []
  | (prop, .pdict dl) :: rest =>
    match dlookup dl "example" with
    | some e =>
      match genDefProps rest with
      | some r => some ((prop, e) :: r)
      | none => none
    | none =>
      match dlookup dl "type" with
      | none =>
        match genDefProps rest with
        | some r => some ((prop, .pstr ("example_" ++ prop)) :: r)
        | none => none
      | some (.pstr "string") =>
        match genDefProps rest with
        | some r => some ((prop, .pstr ("example_" ++ prop)) :: r)
        | none => none
      | some (.pstr "integer") =>
        match genDefProps rest with
        | some r => some ((prop, .pint 0) :: r)
        | none => none
      | some (.pstr "boolean") =>
        match genDefProps rest with
        | some r => some ((prop, .pbool true) :: r)
        | none => none
      | some (.pstr "array") =>
        match hi : dlookup dl "items" with
        | some items =>
          match generate_default_body items with
          | some ex =>
            match genDefProps rest with
            | some r => some ((prop, .plist [ex]) :: r)
            | none => none
          | none => none
        | none =>
          match generate_default_body (.pdict []) with
          | some ex =>
            match genDefProps rest with
            | some r => some ((prop, .plist [ex]) :: r)
            | none => none
          | none => none
      | some (.pstr "object") =>
        match generate_default_body (.pdict dl) with
        | some ex =>
          match genDefProps rest with
          | some r => some ((prop, ex) :: r)
          | none => none
        | none => none
      | some _ => genDefProps rest
  | (_, _) :: _ => none
termination_by l => sizeOf l
decreasing_by
  all_goals simp only [List.cons.sizeOf_spec, Prod.mk.sizeOf_spec, PyVal.pdict.sizeOf_spec,
    List.nil.sizeOf_spec] at *
  all_goals try omega
  all_goals try
    first
    | (have h1 := PyVal.dlookup_sizeOf hi
       simp only [List.cons.sizeOf_spec, Prod.mk.sizeOf_spec] at h1
       omega)

end

/-! String utilities mirroring the Python string operations the script
uses: str.lower, str.upper, str(), repr(), str.rstrip, str.replace,
substring membership, and str.format with keyword arguments. -/

mutual

/-- Python repr() restricted to the PyVal universe. Quote switching and
escape sequences inside string reprs are not modelled; no verified code
path passes a string through repr. -/
def pyRepr : PyVal → String
  | .pnone => "None"
  | .pbool b => if b then "True" else "False"
  | .pint n => toString n
  | .pstr s => "\x27" ++ s ++ "\x27"
  | .plist xs => "[" ++ String.intercalate ", " (pyReprL xs) ++ "]"
  | .pdict xs => "\x7b" ++ String.intercalate ", " (pyReprD xs) ++ "\x7d"
termination_by v => sizeOf v

def pyReprL : List PyVal → List String
  | [] => []
  | v :: t => pyRepr v :: pyReprL t
termination_by l => sizeOf l

def pyReprD : List (String × PyVal) → List String
  | [] => []
  | (k, v) :: t => ("\x27" ++ k ++ "\x27: " ++ pyRepr v) :: pyReprD t
termination_by l => sizeOf l

end

/-- Python str() conversion as used in f-string interpolation: identical to
repr() on every PyVal except strings, which convert to themselves. -/
def pyStr : PyVal → String
  | .pstr s => s
  | v => pyRepr v

/-- Whether the second list starts with the first. -/
def listStarts : List Char → List Char → Bool
  | [], _ => true
  | _ :: _, [] => false
  | p :: ps, c :: cs => if p = c then listStarts ps cs else false

/-- Whether the character list needle occurs as a contiguous sublist of the
haystack (Python substring membership test). -/
def listContainsSub (needle : List Char) : List Char → Bool
  | [] => needle.isEmpty
  | c :: rest => listStarts needle (c :: rest) || listContainsSub needle rest

/-- Python non-overlapping left-to-right str.replace for a nonempty
pattern, on character lists. -/
def pyReplaceCore (o : Char) (os : List Char) (new : List Char) : List Char → List Char
  | [] => []
  | c :: rest =>
    if listStarts (o :: os) (c :: rest) then
      new ++ pyReplaceCore o os new ((c :: rest).drop (o :: os).length)
    else
      c :: pyReplaceCore o os new rest
termination_by l => l.length
decreasing_by
  · simp only [List.length_drop, List.length_cons]
    omega
  · simp only [List.length_cons]
    omega

/-- Python str.replace with an empty pattern: the replacement is inserted
before every character and at the end. -/
def pyReplaceEmptyPat (new : List Char) : List Char → List Char
  | [] => new
  | c :: rest => new ++ c :: pyReplaceEmptyPat new rest

/-- Python str.replace(old, new). -/
def pyReplace (s old new : String) : String :=
  match old.data with
  | [] => String.mk (pyReplaceEmptyPat new.data s.data)
  | o :: os => String.mk (pyReplaceCore o os new.data s.data)

/-- Lowercase hex digit. -/
def hexDigit (n : Nat) : Char :=
  if n < 10 then Char.ofNat (48 + n) else Char.ofNat (87 + n)

/-- Four lowercase hex digits. -/
def hex4 (n : Nat) : String :=
  String.mk [hexDigit (n / 4096 % 16), hexDigit (n / 256 % 16),
    hexDigit (n / 16 % 16), hexDigit (n % 16)]

/-- A backslash-u escape for a code point, using a surrogate pair above
the basic multilingual plane, as the Python json encoder emits. -/
def uEscape (n : Nat) : String :=
  if n < 65536 then "\\u" ++ hex4 n
  else
    "\\u" ++ hex4 (55296 + (n - 65536) / 1024) ++ "\\u" ++ hex4 (56320 + (n - 65536) % 1024)

/-- Escaping of one character inside a JSON string literal, matching the
Python json encoder with ensure_ascii: named escapes for the common
control characters, backslash-u for everything else outside the printable
ASCII range. -/
def jsonEscapeChar (c : Char) : String :=
  if c = '\"' then "\\\""
  else if c = '\\' then "\\\\"
  else if c = '\n' then "\\n"
  else if c = '\t' then "\\t"
  else if c = '\r' then "\\r"
  else if c = '\x08' then "\\b"
  else if c = '\x0c' then "\\f"
  else if c.toNat < 32 || c.toNat > 126 then uEscape c.toNat
  else String.mk [c]

/-- JSON string literal for s. -/
def jsonQuote (s : String) : String :=
  "\"" ++ String.join (s.data.map jsonEscapeChar) ++ "\""

/-- Indentation at a nesting level, two spaces per level. -/
def jindent (lvl : Nat) : String := String.mk (List.replicate (2 * lvl) ' ')

mutual

/-- json.dumps(v, indent=2) at a given nesting level. -/
def jsonDumpsV : Nat → PyVal → String
  | _, .pnone => "null"
  | _, .pbool b => if b then "true" else "false"
  | _, .pint n => toString n
  | _, .pstr s => jsonQuote s
  | _, .plist [] => "[]"
  | lvl, .plist (x :: xs) =>
    "[\n" ++ jindent (lvl + 1)
      ++ String.intercalate (",\n" ++ jindent (lvl + 1)) (jsonDumpsL (lvl + 1) (x :: xs))
      ++ "\n" ++ jindent lvl ++ "]"
  | _, .pdict [] => "\x7b\x7d"
  | lvl, .pdict (x :: xs) =>
    "\x7b\n" ++ jindent (lvl + 1)
      ++ String.intercalate (",\n" ++ jindent (lvl + 1)) (jsonDumpsD (lvl + 1) (x :: xs))
      ++ "\n" ++ jindent lvl ++ "\x7d"
termination_by _ v => sizeOf v

def jsonDumpsL : Nat → List PyVal → List String
  | _, [] => []
  | lvl, v :: t => jsonDumpsV lvl v :: jsonDumpsL lvl t
termination_by _ l => sizeOf l

def jsonDumpsD : Nat → List (String × PyVal) → List String
  | _, [] => []
  | lvl, (k, v) :: t => (jsonQuote k ++ ": " ++ jsonDumpsV lvl v) :: jsonDumpsD lvl t
termination_by _ l => sizeOf l

end

/-- json.dumps(v, indent=2). -/
def pyJsonDumps (v : PyVal) : String := jsonDumpsV 0 v

/-! The emitter, generate_http (swagger2http.py lines 104-169). The output
file content is modelled as the returned string; the Python exceptions on
malformed documents are Except errors. -/

/-- Python membership test value-in-container for a string needle, used
for the content type and security checks: key test on a dict, element
test on a list, substring test on a string, TypeError otherwise. -/
def pyContains (v : PyVal) (s : String) : Except String Bool :=
  match v with
  | .pdict l => pure (dlookup l s).isSome
  | .plist xs =>
    pure (xs.any (fun x => match x with | .pstr t => t = s | _ => false))
  | .pstr t => pure (listContainsSub s.data t.data)
  | _ => .error "TypeError: argument is not iterable"

/-- Python container[key] for a string key. -/
def pyIndexKey (v : PyVal) (k : String) : Except String PyVal :=
  match v with
  | .pdict l =>
    match dlookup l k with
    | some x => pure x
    | none => .error ("KeyError: " ++ k)
  | _ => .error "TypeError: object is not subscriptable"

/-- The authorization header emitted for secured operations (line 129). -/
def authHeader : String := "Authorization: Bearer \x7b\x7btoken\x7d\x7d"

/-- Initial header list (lines 124-129): the content type header, then the
bearer placeholder when the operation or the document declares security. -/
def blockHeaders0 (swagger : PyVal) (sl : List (String × PyVal)) :
    Except String (List String) :=
  match pyContains swagger "security" with
  | .ok docSec =>
    pure (["Content-Type: application/json"]
      ++ (if (dlookup sl "security").isSome || docSec then [authHeader] else []))
  | .error e => .error e

/-- The parameter collection loop (lines 132-138): accumulates query pairs
and header lines, and applies the no-op path substitution for path
parameters. State is (query params, headers, path). -/
def processParams : List PyVal → List String → List String → String →
    Except String (List String × List String × String)
  | [], ps, hs, path => pure (ps, hs, path)
  | .pdict pl :: rest, ps, hs, path =>
    match dlookup pl "in" with
    | some (.pstr "query") =>
      match dlookup pl "name" with
      | some nv =>
        processParams rest (ps ++ [pyStr nv ++ "=\x7b" ++ pyStr nv ++ "\x7d"]) hs path
      | none => .error "KeyError: name"
    | some (.pstr "header") =>
      match dlookup pl "name" with
      | some nv =>
        processParams rest ps (hs ++ [pyStr nv ++ ": \x7b" ++ pyStr nv ++ "\x7d"]) path
      | none => .error "KeyError: name"
    | some (.pstr "path") =>
      match dlookup pl "name" with
      | some nv =>
        processParams rest ps hs
          (pyReplace path ("\x7b" ++ pyStr nv ++ "\x7d") ("\x7b" ++ pyStr nv ++ "\x7d"))
      | none => .error "KeyError: name"
    | some _ => processParams rest ps hs path
    | none => .error "KeyError: in"
  | _ :: _, _, _, _ => .error "TypeError: parameter is not a mapping"

/-- First parameter whose kind is body (the generator expression at lines
146-147), scanning in order and raising on a malformed entry reached
before a match, exactly as the Python any and next do. -/
def findBodyParam : List PyVal → Except String (Option (List (String × PyVal)))
  | [] => pure none
  | .pdict pl :: rest =>
    match dlookup pl "in" with
    | some (.pstr "body") => pure (some pl)
    | some _ => findBodyParam rest
    | none => .error "KeyError: in"
  | _ :: _ => .error "TypeError: parameter is not a mapping"

/-- The request body computation (lines 140-148): an OpenAPI requestBody
with application/json content is serialized through the name-hinted
generator; otherwise a Swagger 2.0 body parameter schema goes through the
example-first generator; no body yields the empty string. -/
def computeBody (sl : List (String × PyVal)) (params : List PyVal) :
    Except String String :=
  match dlookup sl "requestBody" with
  | some (.pdict rbl) =>
    match pyContains ((dlookup rbl "content").getD (.pdict [])) "application/json" with
    | .ok true =>
      match pyIndexKey ((dlookup rbl "content").getD (.pdict [])) "application/json" with
      | .ok (.pdict cjl) =>
        match generate_default_body ((dlookup cjl "schema").getD (.pdict [])) with
        | some v => pure (pyJsonDumps v)
        | none => .error "TypeError: malformed schema"
      | .ok _ => .error "AttributeError: content entry has no get"
      | .error e => .error e
    | .ok false => pure ""
    | .error e => .error e
  | some _ => .error "AttributeError: requestBody has no get"
  | none =>
    match findBodyParam params with
    | .ok (some pl) =>
      match generate_example ((dlookup pl "schema").getD (.pdict [])) with
      | some v => pure (pyJsonDumps v)
      | none => .error "TypeError: malformed schema"
    | .ok none => pure ""
    | .error e => .error e

/-- The request line URL (lines 150-154): templated base url token, the
path, then the query pairs joined by ampersands after a single question
mark when any exist. -/
def buildUrl (path : String) (qparams : List String) : String :=
  "\x7b\x7bbaseUrl\x7d\x7d" ++ path
    ++ (if qparams.isEmpty then "" else "?" ++ String.intercalate "&" qparams)

/-- Removes every binding of a key from a dict. -/
def eraseKey (l : List (String × PyVal)) (k : String) : List (String × PyVal) :=
  l.filter (fun p => p.1 != k)

/-- Whether an optional value is the given string scalar. -/
def isSomePStr (o : Option PyVal) (t : String) : Bool :=
  match o with
  | some (.pstr s) => s = t
  | _ => false

/-- The properties that the example-first generator keeps: an explicit
example, a primitive declared type, an array type with declared items, or
a reference; everything else falls off the if chain at lines 51-63. -/
def exPropIncluded : String × PyVal → Bool
  | (_, .pdict dl) =>
    (dlookup dl "example").isSome
    || isSomePStr (dlookup dl "type") "string"
    || isSomePStr (dlookup dl "type") "integer"
    || isSomePStr (dlookup dl "type") "boolean"
    || (isSomePStr (dlookup dl "type") "array" && (dlookup dl "items").isSome)
    || (dlookup dl "$ref").isSome
  | _ => false

/-- The properties that the name-hinted generator keeps: an explicit
example, or a declared type (defaulting to string) among the five
recognized names at lines 87-97. -/
def defPropIncluded : String × PyVal → Bool
  | (_, .pdict dl) =>
    (dlookup dl "example").isSome
    || (dlookup dl "type").isNone
    || isSomePStr (dlookup dl "type") "string"
    || isSomePStr (dlookup dl "type") "integer"
    || isSomePStr (dlookup dl "type") "boolean"
    || isSomePStr (dlookup dl "type") "array"
    || isSomePStr (dlookup dl "type") "object"
  | _ => false

/-- The request body schema used in the security example of the spec. -/
def schemaC8 : PyVal :=
  .pdict [("type", .pstr "object"),
    ("properties", .pdict [("name", .pdict [("type", .pstr "string")])])]

/-- The serialized body the spec expects for schemaC8. -/
def bodyC8 : String := "\x7b\n  \"name\": \"example_name\"\n\x7d"

/-- A requestBody entry holding schemaC8 under application/json. -/
def requestBodyC8 : PyVal :=
  .pdict [("content", .pdict [("application/json", .pdict [("schema", schemaC8)])])]

theorem gdb_ref_top {k0 : String} {v0 : PyVal} {l : List (String × PyVal)} {r : PyVal}
    (h : dlookup ((k0, v0) :: l) "$ref" = some r) :
    generate_default_body (.pdict ((k0, v0) :: l)) = some (.pdict [("$ref", r)]) := by
  simp only [generate_default_body, h]

theorem genEx_top_example {l : List (String × PyVal)} {e : PyVal}
    (h : dlookup l "example" = some e) :
    generate_example (.pdict l) = some e := by
  cases l with
  | nil => simp [dlookup] at h
  | cons x t => simp only [generate_example, h]

theorem genEx_top_default {l : List (String × PyVal)}
    (hex : dlookup l "example" = none) (hpr : dlookup l "properties" = none) :
    generate_example (.pdict l) = some (.pdict []) := by
  cases l with
  | nil => simp [generate_example, dlookup]
  | cons x t =>
    simp only [generate_example, hex]
    split <;> simp_all

theorem gdb_array_top {k0 : String} {v0 : PyVal} {l : List (String × PyVal)}
    (h1 : dlookup ((k0, v0) :: l) "$ref" = none)
    (h2 : dlookup ((k0, v0) :: l) "type" = some (.pstr "array")) :
    generate_default_body (.pdict ((k0, v0) :: l)) =
      match generate_default_body ((dlookup ((k0, v0) :: l) "items").getD (.pdict [])) with
      | some ex => some (.plist [ex])
      | none => none := by
  simp only [generate_default_body, h1, h2]
  split <;> simp_all [generate_default_body]

theorem genDefProps_array {prop : String} {dl rest : List (String × PyVal)}
    (hex : dlookup dl "example" = none)
    (ht : dlookup dl "type" = some (.pstr "array")) :
    genDefProps ((prop, .pdict dl) :: rest) =
      match generate_default_body ((dlookup dl "items").getD (.pdict [])) with
      | some ex =>
        (match genDefProps rest with
         | some r => some ((prop, .plist [ex]) :: r)
         | none => none)
      | none => none := by
  simp only [genDefProps, hex, ht]
  split <;> simp_all [generate_default_body]

theorem genExProps_array {prop : String} {dl rest : List (String × PyVal)} {items : PyVal}
    (hex : dlookup dl "example" = none)
    (ht : dlookup dl "type" = some (.pstr "array"))
    (hi : dlookup dl "items" = some items) :
    genExProps ((prop, .pdict dl) :: rest) =
      match generate_example items with
      | some ex =>
        (match genExProps rest with
         | some r => some ((prop, .plist [ex]) :: r)
         | none => none)
      | none => none := by
  simp only [genExProps, hex, ht]
  split <;> simp_all

theorem genExProps_ref {prop : String} {dl rest : List (String × PyVal)} {r : PyVal}
    (hex : dlookup dl "example" = none)
    (ht : dlookup dl "type" = none)
    (hr : dlookup dl "$ref" = some r) :
    genExProps ((prop, .pdict dl) :: rest) =
      match genExProps rest with
      | some rs => some ((prop, .pdict [("$ref", r)]) :: rs)
      | none => none := by
  simp only [genExProps, hex, ht, hr]

theorem genDefProps_example {prop : String} {dl rest : List (String × PyVal)} {e : PyVal}
    (hex : dlookup dl "example" = some e) :
    genDefProps ((prop, .pdict dl) :: rest) =
      match genDefProps rest with
      | some r => some ((prop, e) :: r)
      | none => none := by
  simp only [genDefProps, hex]

/-- C2: a dollar-ref schema node yields the placeholder mapping and is
never dereferenced — confirmed for generate_default_body at every position
where the function is entered (top level, array items), and for
generate_example only in property position for a ref-only property schema;
at top level generate_example instead falls through to the object default
and returns the empty mapping. -/
theorem claim_C2 :
    (∀ (k0 : String) (v0 : PyVal) (l : List (String × PyVal)) (r : PyVal),
      dlookup ((k0, v0) :: l) "$ref" = some r →
      generate_default_body (.pdict ((k0, v0) :: l)) = some (.pdict [("$ref", r)]))
    ∧ (∀ (prop : String) (dl rest : List (String × PyVal)) (r : PyVal),
      dlookup dl "example" = none → dlookup dl "type" = none →
      dlookup dl "$ref" = some r →
      genExProps ((prop, .pdict dl) :: rest) =
        match genExProps rest with
        | some rs => some ((prop, .pdict [("$ref", r)]) :: rs)
        | none => none)
    ∧ (∀ (l : List (String × PyVal)),
      dlookup l "example" = none → dlookup l "properties" = none →
      generate_example (.pdict l) = some (.pdict [])) := by
  refine ⟨?_, ?_, ?_⟩
  · intro k0 v0 l r h
    exact gdb_ref_top h
  · intro prop dl rest r hex ht hr
    exact genExProps_ref hex ht hr
  · intro l hex hpr
    exact genEx_top_default hex hpr

/-- C2 counterexample: at the top level generate_example maps a bare
dollar-ref schema to the empty mapping, not to the placeholder the claim
requires at every position. -/
theorem claim_C2_counterexample :
    generate_example (.pdict [("$ref", .pstr "#/definitions/Pet")]) = some (.pdict [])
    ∧ generate_example (.pdict [("$ref", .pstr "#/definitions/Pet")])
        ≠ some (.pdict [("$ref", .pstr "#/definitions/Pet")]) := by
  constructor
  · simp [generate_example, dlookup]
  · simp [generate_example, dlookup]

/-- C2 witness: the confirmed part at a concrete ref node. -/
theorem claim_C2_witness :
    generate_default_body (.pdict [("$ref", .pstr "#/components/schemas/Pet")])
      = some (.pdict [("$ref", .pstr "#/components/schemas/Pet")]) :=
  claim_C2.1 "$ref" (.pstr "#/components/schemas/Pet") [] (.pstr "#/components/schemas/Pet")
    (by simp [dlookup])

/-- C3: arrays become one-element sequences — confirmed for
generate_default_body at the top level and in property position, and for
generate_example in property position with declared items; refuted at the
generate_example top level, which falls through to the object default and
returns the empty mapping instead of a sequence. -/
theorem claim_C3 :
    (∀ (k0 : String) (v0 : PyVal) (l : List (String × PyVal)),
      dlookup ((k0, v0) :: l) "$ref" = none →
      dlookup ((k0, v0) :: l) "type" = some (.pstr "array") →
      generate_default_body (.pdict ((k0, v0) :: l)) =
        match generate_default_body ((dlookup ((k0, v0) :: l) "items").getD (.pdict [])) with
        | some ex => some (.plist [ex])
        | none => none)
    ∧ (∀ (prop : String) (dl rest : List (String × PyVal)),
      dlookup dl "example" = none →
      dlookup dl "type" = some (.pstr "array") →
      genDefProps ((prop, .pdict dl) :: rest) =
        match generate_default_body ((dlookup dl "items").getD (.pdict [])) with
        | some ex =>
          (match genDefProps rest with
           | some r => some ((prop, .plist [ex]) :: r)
           | none => none)
        | none => none)
    ∧ (∀ (prop : String) (dl rest : List (String × PyVal)) (items : PyVal),
      dlookup dl "example" = none →
      dlookup dl "type" = some (.pstr "array") →
      dlookup dl "items" = some items →
      genExProps ((prop, .pdict dl) :: rest) =
        match generate_example items with
        | some ex =>
          (match genExProps rest with
           | some r => some ((prop, .plist [ex]) :: r)
           | none => none)
        | none => none)
    ∧ (∀ (l : List (String × PyVal)),
      dlookup l "example" = none → dlookup l "properties" = none →
      generate_example (.pdict l) = some (.pdict [])) := by
  refine ⟨?_, ?_, ?_, ?_⟩
  · intro k0 v0 l h1 h2
    exact gdb_array_top h1 h2
  · intro prop dl rest hex ht
    exact genDefProps_array hex ht
  · intro prop dl rest items hex ht hi
    exact genExProps_array hex ht hi
  · intro l hex hpr
    exact genEx_top_default hex hpr

/-- C3 counterexample: a top-level array schema in example-first mode
yields the empty mapping, not the one-element sequence holding the items
example that the claim requires. -/
theorem claim_C3_counterexample :
    generate_example (.pdict [("type", .pstr "array"),
        ("items", .pdict [("type", .pstr "string")])]) = some (.pdict [])
    ∧ generate_example (.pdict [("type", .pstr "array"),
        ("items", .pdict [("type", .pstr "string")])]) ≠ some (.plist [.pdict []]) := by
  constructor <;> simp [generate_example, dlookup]

/-- C3 witness: a concrete top-level array in name-hinted mode produces a
one-element sequence (with the fallback items example). -/
theorem claim_C3_witness :
    generate_default_body (.pdict [("type", .pstr "array")])
      = some (.plist [.pdict [("key", .pstr "value")]]) := by
  have h := claim_C3.1 "type" (.pstr "array") [] (by simp [dlookup]) (by simp [dlookup])
  rw [h]
  simp [dlookup, generate_default_body]


theorem dlookup_eraseKey : ∀ (l : List (String × PyVal)) (k k2 : String), k2 ≠ k →
    dlookup (eraseKey l k) k2 = dlookup l k2 := by
  intro l k k2 h
  induction l with
  | nil => rfl
  | cons x t ih =>
    obtain ⟨a, b⟩ := x
    simp only [eraseKey, List.filter_cons]
    by_cases hak : a = k
    · subst hak
      simp only [bne_self_eq_false, Bool.false_eq_true, if_false]
      show dlookup (eraseKey t a) k2 = dlookup ((a, b) :: t) k2
      rw [ih]
      simp only [dlookup]
      rw [if_neg (fun hh => h hh.symm)]
    · have hb : (a != k) = true := by simp [bne, hak]
      rw [if_pos hb]
      simp only [dlookup]
      by_cases hk2 : a = k2
      · rw [if_pos hk2, if_pos hk2]
      · rw [if_neg hk2, if_neg hk2]
        exact ih

theorem gdb_congr : ∀ (x y : String × PyVal) (t s : List (String × PyVal)),
    dlookup (x :: t) "$ref" = dlookup (y :: s) "$ref" →
    dlookup (x :: t) "type" = dlookup (y :: s) "type" →
    dlookup (x :: t) "properties" = dlookup (y :: s) "properties" →
    dlookup (x :: t) "items" = dlookup (y :: s) "items" →
    generate_default_body (.pdict (x :: t)) = generate_default_body (.pdict (y :: s)) := by
  intro x y t s h1 h2 h3 h4
  obtain ⟨k0, v0⟩ := x
  obtain ⟨k1, v1⟩ := y
  simp only [generate_default_body]
  rw [h1, h2, h3, h4]

/-- C4: an explicit example field is returned verbatim by example-first
mode without recursion, is ignored at the top level by name-hinted mode
(whose result only depends on the ref, type, properties and items keys),
and is still returned verbatim by name-hinted mode when declared on a
property. -/
theorem claim_C4 :
    (∀ (l : List (String × PyVal)) (e : PyVal),
      dlookup l "example" = some e → generate_example (.pdict l) = some e)
    ∧ (∀ l : List (String × PyVal), eraseKey l "example" ≠ [] →
      generate_default_body (.pdict l) = generate_default_body (.pdict (eraseKey l "example")))
    ∧ (∀ (prop : String) (dl rest : List (String × PyVal)) (e : PyVal),
      dlookup dl "example" = some e →
      genDefProps ((prop, .pdict dl) :: rest) =
        match genDefProps rest with
        | some r => some ((prop, e) :: r)
        | none => none) := by
  refine ⟨?_, ?_, ?_⟩
  · intro l e h
    exact genEx_top_example h
  · intro l hne
    cases l with
    | nil => simp [eraseKey] at hne
    | cons x t =>
      cases he : eraseKey (x :: t) "example" with
      | nil => exact absurd he hne
      | cons y s =>
        have e1 : dlookup (x :: t) "$ref" = dlookup (y :: s) "$ref" := by
          rw [← he, dlookup_eraseKey _ _ _ (by decide)]
        have e2 : dlookup (x :: t) "type" = dlookup (y :: s) "type" := by
          rw [← he, dlookup_eraseKey _ _ _ (by decide)]
        have e3 : dlookup (x :: t) "properties" = dlookup (y :: s) "properties" := by
          rw [← he, dlookup_eraseKey _ _ _ (by decide)]
        have e4 : dlookup (x :: t) "items" = dlookup (y :: s) "items" := by
          rw [← he, dlookup_eraseKey _ _ _ (by decide)]
        exact gdb_congr x y t s e1 e2 e3 e4
  · intro prop dl rest e h
    exact genDefProps_example h

/-- C4 witness: a node with both an example and properties, evaluated in
both modes: example-first returns the example untouched, name-hinted
ignores it and synthesizes from the properties. -/
theorem claim_C4_witness :
    generate_example (.pdict [("example", .pstr "given"),
        ("properties", .pdict [("a", .pdict [("type", .pstr "integer")])])])
      = some (.pstr "given")
    ∧ generate_default_body (.pdict [("example", .pstr "given"),
        ("properties", .pdict [("a", .pdict [("type", .pstr "integer")])])])
      = generate_default_body (.pdict [("properties",
          .pdict [("a", .pdict [("type", .pstr "integer")])])]) := by
  constructor
  · exact claim_C4.1 _ (.pstr "given") (by simp [dlookup])
  · have h := claim_C4.2.1 [("example", .pstr "given"),
      ("properties", .pdict [("a", .pdict [("type", .pstr "integer")])])] (by simp [eraseKey])
    simpa [eraseKey] using h


/-- C10: a top-level bare primitive type (string, integer or boolean) in
name-hinted mode falls off both the object and the array branch and
returns the empty mapping, which serializes to the two-character empty
JSON object, so such a requestBody schema produces that body. -/
theorem claim_C10 :
    ∀ (k0 : String) (v0 : PyVal) (l : List (String × PyVal)) (t : String),
      dlookup ((k0, v0) :: l) "$ref" = none →
      dlookup ((k0, v0) :: l) "type" = some (.pstr t) →
      (t = "string" ∨ t = "integer" ∨ t = "boolean") →
      generate_default_body (.pdict ((k0, v0) :: l)) = some (.pdict [])
      ∧ pyJsonDumps (.pdict []) = "\x7b\x7d"
      ∧ (∀ (sl rbl cl al : List (String × PyVal)) (ps : List PyVal),
          dlookup sl "requestBody" = some (.pdict rbl) →
          dlookup rbl "content" = some (.pdict cl) →
          dlookup cl "application/json" = some (.pdict al) →
          dlookup al "schema" = some (.pdict ((k0, v0) :: l)) →
          computeBody sl ps = .ok "\x7b\x7d") := by
  intro k0 v0 l t h1 h2 h3
  have hbody : generate_default_body (.pdict ((k0, v0) :: l)) = some (.pdict []) := by
    rcases h3 with h | h | h <;> subst h <;> simp only [generate_default_body, h1, h2] <;> rfl
  refine ⟨hbody, by simp [pyJsonDumps, jsonDumpsV], ?_⟩
  intro sl rbl cl al ps hsl hrbl hcl hal
  simp [computeBody, hsl, hrbl, pyContains, hcl, pyIndexKey, hal, hbody, pyJsonDumps,
    jsonDumpsV, pure, Except.pure]

/-- C10 witness: the bare string schema body. -/
theorem claim_C10_witness :
    generate_default_body (.pdict [("type", .pstr "string")]) = some (.pdict [])
    ∧ computeBody [("requestBody", .pdict [("content", .pdict [("application/json",
        .pdict [("schema", .pdict [("type", .pstr "string")])])])])] [] = .ok "\x7b\x7d" := by
  have h := claim_C10 "type" (.pstr "string") [] "string" (by simp [dlookup]) (by simp [dlookup])
    (Or.inl rfl)
  refine ⟨h.1, ?_⟩
  exact h.2.2
    [("requestBody", .pdict [("content", .pdict [("application/json",
      .pdict [("schema", .pdict [("type", .pstr "string")])])])])]
    [("content", .pdict [("application/json", .pdict [("schema",
      .pdict [("type", .pstr "string")])])])]
    [("application/json", .pdict [("schema", .pdict [("type", .pstr "string")])])]
    [("schema", .pdict [("type", .pstr "string")])]
    [] (by simp [dlookup]) (by simp [dlookup]) (by simp [dlookup]) (by simp [dlookup])


/-- C6 (amended): query parameters are appended as single-brace
name=\x7bname\x7d pairs (the f-string at line 134 collapses the doubled
braces to one), joined by ampersands after one question mark. -/
theorem claim_C6 :
    (∀ (prop : String) (pl : List (String × PyVal)) (rest : List PyVal)
       (ps hs : List String) (path : String),
      dlookup pl "in" = some (.pstr "query") →
      dlookup pl "name" = some (.pstr prop) →
      processParams (.pdict pl :: rest) ps hs path =
        processParams rest (ps ++ [prop ++ "=\x7b" ++ prop ++ "\x7d"]) hs path)
    ∧ (∀ (path q : String) (qs : List String),
      buildUrl path (q :: qs) =
        "\x7b\x7bbaseUrl\x7d\x7d" ++ path ++ "?" ++ String.intercalate "&" (q :: qs)) := by
  constructor
  · intro prop pl rest ps hs path hin hname
    simp only [processParams, hin, hname, pyStr]
  · intro path q qs
    simp [buildUrl, String.append_assoc]

/-- C6 counterexample: the emitted query pair uses single braces, not the
double-brace template the claim states. -/
theorem claim_C6_counterexample :
    processParams [.pdict [("name", .pstr "q"), ("in", .pstr "query")]] []
      ["Content-Type: application/json"] "/p"
      = .ok (["q=\x7bq\x7d"], ["Content-Type: application/json"], "/p")
    ∧ ("q=\x7bq\x7d" : String) ≠ "q=\x7b\x7bq\x7d\x7d" := by
  constructor
  · simp [processParams, dlookup, pyStr, pure, Except.pure]
  · decide

/-- C6 witness: one query parameter produces the single-brace pair and the
url joins it after a question mark. -/
theorem claim_C6_witness :
    processParams [.pdict [("name", .pstr "page"), ("in", .pstr "query")]] [] [] "/x" =
      processParams [] ["page=\x7bpage\x7d"] [] "/x"
    ∧ buildUrl "/x" ["page=\x7bpage\x7d"] =
      "\x7b\x7bbaseUrl\x7d\x7d" ++ "/x" ++ "?" ++ String.intercalate "&" ["page=\x7bpage\x7d"] := by
  constructor
  · exact claim_C6.1 "page" [("name", .pstr "page"), ("in", .pstr "query")] [] [] [] "/x"
      (by simp [dlookup]) (by simp [dlookup])
  · exact claim_C6.2 "/x" "page=\x7bpage\x7d" []

theorem listStarts_append : ∀ (p l : List Char), listStarts p l = true →
    p ++ l.drop p.length = l := by
  intro p
  induction p with
  | nil => intro l h; simp
  | cons c cs ih =>
    intro l h
    cases l with
    | nil => simp [listStarts] at h
    | cons d ds =>
      simp only [listStarts] at h
      split at h
      · rename_i hcd
        subst hcd
        simp only [List.length_cons, List.drop_succ_cons, List.cons_append, List.cons.injEq,
          true_and]
        exact ih ds h
      · simp at h

theorem pyReplaceCore_self (o : Char) (os : List Char) :
    ∀ (n : Nat) (l : List Char), l.length ≤ n → pyReplaceCore o os (o :: os) l = l := by
  intro n
  induction n with
  | zero =>
    intro l h
    have : l = [] := List.length_eq_zero.mp (Nat.le_zero.mp h)
    subst this
    simp [pyReplaceCore]
  | succ n ih =>
    intro l h
    cases l with
    | nil => simp [pyReplaceCore]
    | cons c rest =>
      simp only [pyReplaceCore]
      split
      · rename_i hst
        rw [ih _ (by simp at h ⊢; omega)]
        · exact listStarts_append _ _ hst
      · rw [ih rest (by simp at h; omega)]

theorem pyReplaceEmptyPat_nil : ∀ l : List Char, pyReplaceEmptyPat [] l = l := by
  intro l
  induction l with
  | nil => rfl
  | cons c rest ih => simp [pyReplaceEmptyPat, ih]

theorem pyReplace_self (s t : String) : pyReplace s t t = s := by
  unfold pyReplace
  cases ht : t.data with
  | nil =>
    show String.mk (pyReplaceEmptyPat [] s.data) = s
    rw [pyReplaceEmptyPat_nil]
  | cons o os =>
    show String.mk (pyReplaceCore o os (o :: os) s.data) = s
    rw [pyReplaceCore_self o os s.data.length s.data (Nat.le_refl _)]

theorem processParams_path : ∀ (params : List PyVal) (ps hs : List String) (path : String)
    (r : List String × List String × String),
    processParams params ps hs path = .ok r → r.2.2 = path := by
  intro params
  induction params with
  | nil =>
    intro ps hs path r h
    simp only [processParams, pure, Except.pure, Except.ok.injEq] at h
    rw [← h]
  | cons p rest ih =>
    intro ps hs path r h
    cases p with
    | pdict pl =>
      simp only [processParams] at h
      split at h
      · split at h
        · exact ih _ _ _ _ h
        · simp at h
      · split at h
        · exact ih _ _ _ _ h
        · simp at h
      · split at h
        · rw [ih _ _ _ _ h, pyReplace_self]
        · simp at h
      · exact ih _ _ _ _ h
      · simp at h
    | pnone => simp [processParams] at h
    | pbool b => simp [processParams] at h
    | pint n => simp [processParams] at h
    | pstr t => simp [processParams] at h
    | plist xs => simp [processParams] at h

/-- C7: path parameters leave the path unchanged — the replace call at
line 138 substitutes a substring by itself, so the parameter loop
preserves the path, and the request line embeds that path verbatim after
the base url token. -/
theorem claim_C7 :
    (∀ (s t : String), pyReplace s t t = s)
    ∧ (∀ (params : List PyVal) (ps hs : List String) (path : String)
         (r : List String × List String × String),
        processParams params ps hs path = .ok r → r.2.2 = path)
    ∧ (∀ (path : String) (qparams : List String),
        buildUrl path qparams = "\x7b\x7bbaseUrl\x7d\x7d" ++ path
          ++ (if qparams.isEmpty then "" else "?" ++ String.intercalate "&" qparams)) := by
  refine ⟨pyReplace_self, processParams_path, ?_⟩
  intro path qparams
  rfl

/-- C7 witness: a concrete path parameter leaves the path template
untouched. -/
theorem claim_C7_witness :
    processParams [.pdict [("name", .pstr "id"), ("in", .pstr "path")]] [] []
      "/items/\x7bid\x7d" = .ok ([], [], "/items/\x7bid\x7d")
    ∧ (([], [], "/items/\x7bid\x7d") : List String × List String × String).2.2
        = "/items/\x7bid\x7d" := by
  have hrun : processParams [.pdict [("name", .pstr "id"), ("in", .pstr "path")]] [] []
      "/items/\x7bid\x7d" = .ok ([], [], "/items/\x7bid\x7d") := by
    simp [processParams, dlookup, pyStr, pure, Except.pure, pyReplace_self]
  exact ⟨hrun, claim_C7.2.1 _ _ _ _ _ hrun⟩


theorem processParams_keeps_headers : ∀ (params : List PyVal) (ps hs : List String)
    (path : String) (r : List String × List String × String) (h0 : String),
    h0 ∈ hs → processParams params ps hs path = .ok r → h0 ∈ r.2.1 := by
  intro params
  induction params with
  | nil =>
    intro ps hs path r h0 hmem h
    simp only [processParams, pure, Except.pure, Except.ok.injEq] at h
    rw [← h]
    exact hmem
  | cons p rest ih =>
    intro ps hs path r h0 hmem h
    cases p with
    | pdict pl =>
      simp only [processParams] at h
      split at h
      · split at h
        · exact ih _ _ _ _ _ hmem h
        · simp at h
      · split at h
        · exact ih _ _ _ _ _ (List.mem_append_left _ hmem) h
        · simp at h
      · split at h
        · exact ih _ _ _ _ _ hmem h
        · simp at h
      · exact ih _ _ _ _ _ hmem h
      · simp at h
    | pnone => simp [processParams] at h
    | pbool b => simp [processParams] at h
    | pint n => simp [processParams] at h
    | pstr t => simp [processParams] at h
    | plist xs => simp [processParams] at h

/-- C8: an operation that declares security (or lives in a document that
does) with the application/json object-of-one-string-property request body
gets the bearer authorization header among its header lines, and its
serialized body is exactly the one-key example object. -/
theorem claim_C8 :
    ∀ (docl sl rbl cl al : List (String × PyVal)) (path : String)
      (prms : List PyVal) (hs0 : List String)
      (r : List String × List String × String),
      ((dlookup sl "security").isSome ∨ (dlookup docl "security").isSome) →
      dlookup sl "requestBody" = some (.pdict rbl) →
      dlookup rbl "content" = some (.pdict cl) →
      dlookup cl "application/json" = some (.pdict al) →
      dlookup al "schema" = some schemaC8 →
      blockHeaders0 (.pdict docl) sl = .ok hs0 →
      processParams prms [] hs0 path = .ok r →
      authHeader ∈ r.2.1 ∧ computeBody sl prms = .ok bodyC8 := by
  intro docl sl rbl cl al path prms hs0 r hsec hsl hrbl hcl hal hbh hpp
  constructor
  · have hcond : ((dlookup sl "security").isSome
        || (dlookup docl "security").isSome) = true := by
      rcases hsec with h | h <;> simp [h]
    simp only [blockHeaders0, pyContains, pure, Except.pure, hcond, if_true,
      Except.ok.injEq] at hbh
    apply processParams_keeps_headers prms [] hs0 path r authHeader _ hpp
    rw [← hbh]
    simp
  · have hgen : generate_default_body schemaC8
        = some (.pdict [("name", .pstr "example_name")]) := by
      simp [schemaC8, generate_default_body, genDefProps, dlookup]
    have hjson : pyJsonDumps (.pdict [("name", .pstr "example_name")]) = bodyC8 := by
      simp [pyJsonDumps, jsonDumpsV, jsonDumpsD, jsonQuote, jsonEscapeChar, jindent, bodyC8]
      decide
    simp [computeBody, hsl, hrbl, pyContains, hcl, pyIndexKey, hal, hgen, hjson,
      pure, Except.pure]

/-- C8 witness: a concrete secured operation with the one-property object
request body. -/
theorem claim_C8_witness :
    authHeader ∈ (([], ["Content-Type: application/json", authHeader], "/users")
        : List String × List String × String).2.1
    ∧ computeBody [("security", .plist []), ("requestBody", requestBodyC8)] []
        = .ok bodyC8 := by
  exact claim_C8 [] [("security", .plist []), ("requestBody", requestBodyC8)]
    [("content", .pdict [("application/json", .pdict [("schema", schemaC8)])])]
    [("application/json", .pdict [("schema", schemaC8)])]
    [("schema", schemaC8)]
    "/users" [] ["Content-Type: application/json", authHeader]
    ([], ["Content-Type: application/json", authHeader], "/users")
    (Or.inl (by simp [dlookup]))
    (by simp [dlookup, requestBodyC8])
    (by simp [dlookup])
    (by simp [dlookup])
    (by simp [dlookup])
    (by simp [blockHeaders0, pyContains, dlookup, pure, Except.pure])
    (by simp [processParams, pure, Except.pure])


theorem genExProps_array_noitems {prop : String} {dl rest : List (String × PyVal)}
    (hex : dlookup dl "example" = none)
    (ht : dlookup dl "type" = some (.pstr "array"))
    (hi : dlookup dl "items" = none) :
    genExProps ((prop, .pdict dl) :: rest) =
      match dlookup dl "$ref" with
      | some r =>
        (match genExProps rest with
         | some rs => some ((prop, .pdict [("$ref", r)]) :: rs)
         | none => none)
      | none => genExProps rest := by
  simp only [genExProps, hex, ht]
  split <;> simp_all

theorem genExProps_other {prop : String} {dl rest : List (String × PyVal)} {tv : PyVal}
    (hex : dlookup dl "example" = none)
    (ht : dlookup dl "type" = some tv)
    (t1 : tv ≠ .pstr "string") (t2 : tv ≠ .pstr "integer")
    (t3 : tv ≠ .pstr "boolean") (t4 : tv ≠ .pstr "array") :
    genExProps ((prop, .pdict dl) :: rest) =
      match dlookup dl "$ref" with
      | some r =>
        (match genExProps rest with
         | some rs => some ((prop, .pdict [("$ref", r)]) :: rs)
         | none => none)
      | none => genExProps rest := by
  simp only [genExProps, hex, ht]
  split <;> simp_all

theorem genExProps_keys : ∀ (props out : List (String × PyVal)),
    genExProps props = some out →
    out.map Prod.fst = (props.filter exPropIncluded).map Prod.fst := by
  intro props
  induction props with
  | nil =>
    intro out h
    simp only [genExProps, Option.some.injEq] at h
    subst h
    simp
  | cons hd rest ih =>
    intro out h
    obtain ⟨prop, pv⟩ := hd
    cases pv with
    | pdict dl =>
      cases hex : dlookup dl "example" with
      | some e =>
        simp only [genExProps, hex] at h
        cases hrest : genExProps rest with
        | none => rw [hrest] at h; simp at h
        | some rr =>
          rw [hrest] at h
          simp only [Option.some.injEq] at h
          subst h
          simp [List.filter_cons, exPropIncluded, hex, ih rr hrest]
      | none =>
        cases ht : dlookup dl "type" with
        | none =>
          cases hr : dlookup dl "$ref" with
          | some r =>
            simp only [genExProps, hex, ht, hr] at h
            cases hrest : genExProps rest with
            | none => rw [hrest] at h; simp at h
            | some rr =>
              rw [hrest] at h
              simp only [Option.some.injEq] at h
              subst h
              simp [List.filter_cons, exPropIncluded, isSomePStr, hex, ht, hr, ih rr hrest]
          | none =>
            simp only [genExProps, hex, ht, hr] at h
            rw [ih out h]
            simp [List.filter_cons, exPropIncluded, isSomePStr, hex, ht, hr]
        | some tv =>
          rcases tv with _ | b | n | sv | xs | xs2
          case pstr =>
            by_cases h1 : sv = "string"
            · subst h1
              simp only [genExProps, hex, ht] at h
              cases hrest : genExProps rest with
              | none => rw [hrest] at h; simp at h
              | some rr =>
                rw [hrest] at h
                simp only [Option.some.injEq] at h
                subst h
                simp [List.filter_cons, exPropIncluded, isSomePStr, hex, ht, ih rr hrest]
            · by_cases h2 : sv = "integer"
              · subst h2
                simp only [genExProps, hex, ht] at h
                cases hrest : genExProps rest with
                | none => rw [hrest] at h; simp at h
                | some rr =>
                  rw [hrest] at h
                  simp only [Option.some.injEq] at h
                  subst h
                  simp [List.filter_cons, exPropIncluded, isSomePStr, hex, ht, ih rr hrest]
              · by_cases h3 : sv = "boolean"
                · subst h3
                  simp only [genExProps, hex, ht] at h
                  cases hrest : genExProps rest with
                  | none => rw [hrest] at h; simp at h
                  | some rr =>
                    rw [hrest] at h
                    simp only [Option.some.injEq] at h
                    subst h
                    simp [List.filter_cons, exPropIncluded, isSomePStr, hex, ht, ih rr hrest]
                · by_cases h4 : sv = "array"
                  · subst h4
                    cases hi : dlookup dl "items" with
                    | some items =>
                      rw [genExProps_array hex ht hi] at h
                      cases hgen : generate_example items with
                      | none => rw [hgen] at h; simp at h
                      | some ex =>
                        rw [hgen] at h
                        cases hrest : genExProps rest with
                        | none => rw [hrest] at h; simp at h
                        | some rr =>
                          rw [hrest] at h
                          simp only [Option.some.injEq] at h
                          subst h
                          simp [List.filter_cons, exPropIncluded, isSomePStr, hex, ht, hi,
                            ih rr hrest]
                    | none =>
                      rw [genExProps_array_noitems hex ht hi] at h
                      cases hr : dlookup dl "$ref" with
                      | some r =>
                        rw [hr] at h
                        cases hrest : genExProps rest with
                        | none => rw [hrest] at h; simp at h
                        | some rr =>
                          rw [hrest] at h
                          simp only [Option.some.injEq] at h
                          subst h
                          simp [List.filter_cons, exPropIncluded, isSomePStr, hex, ht, hi, hr,
                            ih rr hrest]
                      | none =>
                        rw [hr] at h
                        rw [ih out h]
                        simp [List.filter_cons, exPropIncluded, isSomePStr, hex, ht, hi, hr]
                  · rw [genExProps_other hex ht (by simp [h1]) (by simp [h2]) (by simp [h3])
                      (by simp [h4])] at h
                    cases hr : dlookup dl "$ref" with
                    | some r =>
                      rw [hr] at h
                      cases hrest : genExProps rest with
                      | none => rw [hrest] at h; simp at h
                      | some rr =>
                        rw [hrest] at h
                        simp only [Option.some.injEq] at h
                        subst h
                        simp [List.filter_cons, exPropIncluded, isSomePStr, hex, ht, h1, h2,
                          h3, h4, hr, ih rr hrest]
                    | none =>
                      rw [hr] at h
                      rw [ih out h]
                      simp [List.filter_cons, exPropIncluded, isSomePStr, hex, ht, h1, h2,
                        h3, h4, hr]
          all_goals
            rw [genExProps_other hex ht (by simp) (by simp) (by simp) (by simp)] at h
          all_goals
            cases hr : dlookup dl "$ref" with
            | some r =>
              rw [hr] at h
              cases hrest : genExProps rest with
              | none => rw [hrest] at h; simp at h
              | some rr =>
                rw [hrest] at h
                simp only [Option.some.injEq] at h
                subst h
                simp [List.filter_cons, exPropIncluded, isSomePStr, hex, ht, hr, ih rr hrest]
            | none =>
              rw [hr] at h
              rw [ih out h]
              simp [List.filter_cons, exPropIncluded, isSomePStr, hex, ht, hr]
    | pnone => simp [genExProps] at h
    | pbool b => simp [genExProps] at h
    | pint n => simp [genExProps] at h
    | pstr t => simp [genExProps] at h
    | plist xs => simp [genExProps] at h


theorem genDefProps_other {prop : String} {dl rest : List (String × PyVal)} {tv : PyVal}
    (hex : dlookup dl "example" = none)
    (ht : dlookup dl "type" = some tv)
    (t1 : tv ≠ .pstr "string") (t2 : tv ≠ .pstr "integer")
    (t3 : tv ≠ .pstr "boolean") (t4 : tv ≠ .pstr "array") (t5 : tv ≠ .pstr "object") :
    genDefProps ((prop, .pdict dl) :: rest) = genDefProps rest := by
  simp only [genDefProps, hex, ht]

theorem genDefProps_keys : ∀ (props out : List (String × PyVal)),
    genDefProps props = some out →
    out.map Prod.fst = (props.filter defPropIncluded).map Prod.fst := by
  intro props
  induction props with
  | nil =>
    intro out h
    simp only [genDefProps, Option.some.injEq] at h
    subst h
    simp
  | cons hd rest ih =>
    intro out h
    obtain ⟨prop, pv⟩ := hd
    cases pv with
    | pdict dl =>
      cases hex : dlookup dl "example" with
      | some e =>
        simp only [genDefProps, hex] at h
        cases hrest : genDefProps rest with
        | none => rw [hrest] at h; simp at h
        | some rr =>
          rw [hrest] at h
          simp only [Option.some.injEq] at h
          subst h
          simp [List.filter_cons, defPropIncluded, hex, ih rr hrest]
      | none =>
        cases ht : dlookup dl "type" with
        | none =>
          simp only [genDefProps, hex, ht] at h
          cases hrest : genDefProps rest with
          | none => rw [hrest] at h; simp at h
          | some rr =>
            rw [hrest] at h
            simp only [Option.some.injEq] at h
            subst h
            simp [List.filter_cons, defPropIncluded, isSomePStr, hex, ht, ih rr hrest]
        | some tv =>
          rcases tv with _ | b | n | sv | xs | xs2
          case pstr =>
            by_cases h1 : sv = "string"
            · subst h1
              simp only [genDefProps, hex, ht] at h
              cases hrest : genDefProps rest with
              | none => rw [hrest] at h; simp at h
              | some rr =>
                rw [hrest] at h
                simp only [Option.some.injEq] at h
                subst h
                simp [List.filter_cons, defPropIncluded, isSomePStr, hex, ht, ih rr hrest]
            · by_cases h2 : sv = "integer"
              · subst h2
                simp only [genDefProps, hex, ht] at h
                cases hrest : genDefProps rest with
                | none => rw [hrest] at h; simp at h
                | some rr =>
                  rw [hrest] at h
                  simp only [Option.some.injEq] at h
                  subst h
                  simp [List.filter_cons, defPropIncluded, isSomePStr, hex, ht, ih rr hrest]
              · by_cases h3 : sv = "boolean"
                · subst h3
                  simp only [genDefProps, hex, ht] at h
                  cases hrest : genDefProps rest with
                  | none => rw [hrest] at h; simp at h
                  | some rr =>
                    rw [hrest] at h
                    simp only [Option.some.injEq] at h
                    subst h
                    simp [List.filter_cons, defPropIncluded, isSomePStr, hex, ht, ih rr hrest]
                · by_cases h4 : sv = "array"
                  · subst h4
                    rw [genDefProps_array hex ht] at h
                    cases hgen : generate_default_body ((dlookup dl "items").getD (.pdict []))
                      with
                    | none => rw [hgen] at h; simp at h
                    | some ex =>
                      rw [hgen] at h
                      cases hrest : genDefProps rest with
                      | none => rw [hrest] at h; simp at h
                      | some rr =>
                        rw [hrest] at h
                        simp only [Option.some.injEq] at h
                        subst h
                        simp [List.filter_cons, defPropIncluded, isSomePStr, hex, ht,
                          ih rr hrest]
                  · by_cases h5 : sv = "object"
                    · subst h5
                      simp only [genDefProps, hex, ht] at h
                      cases hgen : generate_default_body (.pdict dl) with
                      | none => rw [hgen] at h; simp at h
                      | some ex =>
                        rw [hgen] at h
                        cases hrest : genDefProps rest with
                        | none => rw [hrest] at h; simp at h
                        | some rr =>
                          rw [hrest] at h
                          simp only [Option.some.injEq] at h
                          subst h
                          simp [List.filter_cons, defPropIncluded, isSomePStr, hex, ht,
                            ih rr hrest]
                    · rw [genDefProps_other hex ht (by simp [h1]) (by simp [h2]) (by simp [h3])
                        (by simp [h4]) (by simp [h5])] at h
                      rw [ih out h]
                      simp [List.filter_cons, defPropIncluded, isSomePStr, hex, ht, h1, h2,
                        h3, h4, h5]
          all_goals
            rw [genDefProps_other hex ht (by simp) (by simp) (by simp) (by simp) (by simp)] at h
          all_goals
            rw [ih out h]
          all_goals
            simp [List.filter_cons, defPropIncluded, isSomePStr, hex, ht]
    | pnone => simp [genDefProps] at h
    | pbool b => simp [genDefProps] at h
    | pint n => simp [genDefProps] at h
    | pstr t => simp [genDefProps] at h
    | plist xs => simp [genDefProps] at h


/-- C1 (amended): the key set of the generated object example equals the
declared property names filtered by the branches each mode recognizes:
example-first keeps a property with an explicit example, a primitive type,
an array type with items, or a ref, and drops the rest (in particular
object-typed and unknown-typed properties); name-hinted keeps a property
with an explicit example or a declared type (defaulting to string) among
string, integer, boolean, array, object, and drops unknown types. -/
theorem claim_C1 :
    (∀ (l props out : List (String × PyVal)),
      dlookup l "example" = none →
      dlookup l "properties" = some (.pdict props) →
      generate_example (.pdict l) = some (.pdict out) →
      out.map Prod.fst = (props.filter exPropIncluded).map Prod.fst)
    ∧ (∀ (k0 : String) (v0 : PyVal) (l props out : List (String × PyVal)),
      dlookup ((k0, v0) :: l) "$ref" = none →
      (dlookup ((k0, v0) :: l) "type" = none
        ∨ dlookup ((k0, v0) :: l) "type" = some (.pstr "object")) →
      dlookup ((k0, v0) :: l) "properties" = some (.pdict props) →
      generate_default_body (.pdict ((k0, v0) :: l)) = some (.pdict out) →
      out.map Prod.fst = (props.filter defPropIncluded).map Prod.fst) := by
  constructor
  · intro l props out hex hpr hgen
    simp only [generate_example, hex] at hgen
    split at hgen
    · rename_i props1 heq
      rw [hpr] at heq
      simp only [Option.some.injEq, PyVal.pdict.injEq] at heq
      subst heq
      cases hge : genExProps props with
      | none => rw [hge] at hgen; simp at hgen
      | some o =>
        rw [hge] at hgen
        simp only [Option.some.injEq, PyVal.pdict.injEq] at hgen
        subst hgen
        exact genExProps_keys props o hge
    · rename_i val hne heq
      rw [hpr] at heq
      simp at hgen
    · rename_i heq
      rw [hpr] at heq
      simp at heq
  · intro k0 v0 l props out hrf htd hpr hgen
    rcases htd with ht | ht
    · simp only [generate_default_body, hrf, ht] at hgen
      split at hgen
      · rename_i props1 heq
        rw [hpr] at heq
        simp only [Option.some.injEq, PyVal.pdict.injEq] at heq
        subst heq
        cases hge : genDefProps props with
        | none => rw [hge] at hgen; simp at hgen
        | some o =>
          rw [hge] at hgen
          simp only [Option.some.injEq, PyVal.pdict.injEq] at hgen
          subst hgen
          exact genDefProps_keys props o hge
      · rename_i val hne heq
        rw [hpr] at heq
        simp at hgen
      · rename_i heq
        rw [hpr] at heq
        simp at heq
    · simp only [generate_default_body, hrf, ht] at hgen
      split at hgen
      · rename_i props1 heq
        rw [hpr] at heq
        simp only [Option.some.injEq, PyVal.pdict.injEq] at heq
        subst heq
        cases hge : genDefProps props with
        | none => rw [hge] at hgen; simp at hgen
        | some o =>
          rw [hge] at hgen
          simp only [Option.some.injEq, PyVal.pdict.injEq] at hgen
          subst hgen
          exact genDefProps_keys props o hge
      · rename_i val hne heq
        rw [hpr] at heq
        simp at hgen
      · rename_i heq
        rw [hpr] at heq
        simp at heq

/-- C1 counterexample: an object node declaring one property of type
object in example-first mode yields an empty mapping, so the key set is
not the declared one-name set. -/
theorem claim_C1_counterexample :
    generate_example (.pdict [("type", .pstr "object"),
      ("properties", .pdict [("a", .pdict [("type", .pstr "object")])])]) = some (.pdict [])
    ∧ ([] : List (String × PyVal)).map Prod.fst ≠ ["a"] := by
  constructor
  · simp [generate_example, genExProps, dlookup]
  · simp

/-- C1 witness: both modes on a concrete object schema with one
recognized property keep exactly the declared key. -/
theorem claim_C1_witness :
    ([("name", PyVal.pstr "string")].map Prod.fst
      = ([("name", PyVal.pdict [("type", PyVal.pstr "string")])].filter
            exPropIncluded).map Prod.fst)
    ∧ ([("name", PyVal.pstr "example_name")].map Prod.fst
      = ([("name", PyVal.pdict [("type", PyVal.pstr "string")])].filter
            defPropIncluded).map Prod.fst) := by
  have h1 := claim_C1.1 [("properties", .pdict [("name", .pdict [("type", .pstr "string")])])]
      [("name", .pdict [("type", .pstr "string")])]
      [("name", .pstr "string")]
      (by simp [dlookup]) (by simp [dlookup])
      (by simp [generate_example, genExProps, dlookup])
  have h2 := claim_C1.2 "type" (.pstr "object")
      [("properties", .pdict [("name", .pdict [("type", .pstr "string")])])]
      [("name", .pdict [("type", .pstr "string")])]
      [("name", .pstr "example_name")]
      (by simp [dlookup]) (Or.inr (by simp [dlookup])) (by simp [dlookup])
      (by simp [generate_default_body, genDefProps, dlookup])
  exact ⟨h1, h2⟩

end Swagger2Http











